import Mathlib

/-!
Shallow embedding of the SecScoreDB schema-enforcement core:
the schema-checked field accessor (src/DynamicFields.hpp, src/Schema.hpp,
src/Student.h / src/Group.h metadata accessors), the value codec
(std::from_chars / std::format paths inside FieldProxy), the websocket
predicate evaluator (wrappers/websockets/JsonUtils.cpp), and the
predicate-based store queries (src/SecScoreDB.h).

Error kinds follow the spec's taxonomy (section 7); in the source they are
std::runtime_error / ApiError values whose messages correspond one-to-one
to these kinds ("is not defined in the Schema" = FieldNotDeclared,
"Type mismatch" = TypeMismatch, "is empty, cannot convert" = EmptyValue,
"Invalid number format" = InvalidFormat, "Number out of range" = OutOfRange,
"Partial conversion error" = PartialConversion,
"Unsupported ... operator" = UnsupportedOperator,
"logic.rules must be a non-empty array" = EmptyRuleSet,
"String comparison requires string operands" / "must be numeric"
= TypeMismatch, "Unsupported field type in logic rule" = UnsupportedFieldType).
-/

deriving instance DecidableEq for Except

/-- FieldType from src/Schema.hpp: the closed set of semantic types
(`Int`, `Double`, `String`, plus the `Unknown` sentinel). -/
inductive FieldType where
  | Int
  | Double
  | String
  | Unknown
deriving DecidableEq, Repr

/-- Error kinds raised by the accessor, codec and evaluator (spec section 7). -/
inductive Err where
  | FieldNotDeclared
  | TypeMismatch
  | EmptyValue
  | InvalidFormat
  | OutOfRange
  | PartialConversion
  | UnsupportedOperator
  | EmptyRuleSet
  | UnsupportedFieldType
deriving DecidableEq, Repr

/-- Request-time value types `V` accepted by the accessor templates
(`SupportedValue` concept in src/Schema.hpp: integral, floating point,
or string-like). Each template instantiation is one of these three. -/
inductive ReqType where
  | RInt
  | RDouble
  | RString
deriving DecidableEq, Repr

/-- getTypeId from src/Schema.hpp: maps the request type to a FieldType
(string-like types to String, floating point to Double, integral to Int). -/
def getTypeId : ReqType → FieldType
  | .RInt => .Int
  | .RDouble => .Double
  | .RString => .String

/-- Typed values: integers carry the int64 value, doubles are represented by
their exact rational value (every finite IEEE double is a rational, two
distinct finite doubles have distinct rationals and the same order, so
comparisons on this representation agree with double comparisons), and text
passes through. This type also stands for the nlohmann::json scalar values
(integer / number / string) flowing through the websocket evaluator. -/
inductive TypedValue where
  | vint (n : Int)
  | vnum (q : Rat)
  | vstr (s : String)
deriving DecidableEq, Repr

/-- getTypeId of the value written through FieldProxy::operator=
(the setter's template argument `V` classified by src/Schema.hpp). -/
def typeIdOf : TypedValue → FieldType
  | .vint _ => .Int
  | .vnum _ => .Double
  | .vstr _ => .String

/-- Property bag: the entity's string-to-string metadata map
(t_metadata in src/SSDBType.h, owned by Student / Group). -/
abbrev Bag := List (String × String)

/-- Schema: field name to declared FieldType (SchemaDef in src/Schema.hpp). -/
abbrev SchemaDef := List (String × FieldType)

/-- Lookup in a string-keyed association list; models
std::unordered_map::find / std::map::find (keys are unique in the maps). -/
def lookupKey {α : Type} : List (String × α) → String → Option α
  | [], _ => none
  | (k, v) :: rest, key => if k = key then some v else lookupKey rest key

/-- Map insert-or-assign, models `metadata_[key] = value` in
Student::SetMetadataValue / Group::SetMetadataValue. -/
def bagInsert : Bag → String → String → Bag
  | [], key, val => [(key, val)]
  | (k, v) :: rest, key, val =>
      if k = key then (key, val) :: rest else (k, v) :: bagInsert rest key val

/-- Student::GetMetadataValue / Group::GetMetadataValue: the stored text,
or the empty string when the key is absent. -/
def getMetadataValue (bag : Bag) (key : String) : String :=
  (lookupKey bag key).getD ""

/-- Value of a list of decimal digit characters, most significant first
(the accumulation performed by std::from_chars / strtoll on the digit run). -/
def digitsVal (l : List Char) : Nat :=
  l.foldl (fun a c => 10 * a + (c.toNat - 48)) 0

/-- Fuel-driven worker for `natDigits`; the fuel only serves to make the
recursion structural, any fuel above the value is adequate. -/
def natDigitsAux : Nat → Nat → List Char
  | 0, _ => []
  | fuel + 1, n =>
    if n < 10 then [Nat.digitChar n]
    else natDigitsAux fuel (n / 10) ++ [Nat.digitChar (n % 10)]

/-- Decimal digit characters of `n`, most significant first: the text
produced for the integer by `std::format("{}", value)` in
FieldProxy::operator= (src/DynamicFields.hpp line 61). -/
def natDigits (n : Nat) : List Char :=
  natDigitsAux (n + 1) n

/-- std::format("{}", (long long)v): minus sign for negatives followed by
the decimal digits of the magnitude. -/
def formatInt (v : Int) : String :=
  if v < 0 then "-" ++ String.mk (natDigits v.natAbs)
  else String.mk (natDigits v.natAbs)

/-- std::errc outcomes of std::from_chars. -/
inductive Errc where
  | ok
  | invalidArgument
  | resultOutOfRange
deriving DecidableEq, Repr

/-- Result of a from_chars call: the error code, the number of characters
consumed (`ptr - first`), and the parsed value (meaningful when `ec = ok`). -/
structure FromCharsResult where
  ec : Errc
  consumed : Nat
  value : Int
deriving DecidableEq, Repr

/-- Leading-minus handling of std::from_chars for signed integer types:
a single optional '-', no '+', no whitespace skipping. Returns
(negative, remaining characters, characters consumed by the sign). -/
def splitSign (cs : List Char) : Bool × List Char × Nat :=
  match cs with
  | [] => (false, [], 0)
  | c :: rest => if c = '-' then (true, rest, 1) else (false, c :: rest, 0)

/-- std::from_chars for long long (base 10), as called in
FieldProxy::operator V (src/DynamicFields.hpp line 103): optional '-',
then the longest run of decimal digits; `invalidArgument` when the run is
empty, `resultOutOfRange` when the value does not fit int64 (the digits are
still consumed), otherwise `ok` with the signed value. -/
def fromCharsInt64 (s : String) : FromCharsResult :=
  let (neg, body, signLen) := splitSign s.data
  let digits := body.takeWhile Char.isDigit
  if digits = [] then ⟨.invalidArgument, 0, 0⟩
  else
    let n : Int := (digitsVal digits : Nat)
    let v : Int := if neg then -n else n
    let consumed := signLen + digits.length
    if v < -(2 ^ 63) ∨ (2 ^ 63 : Int) ≤ v then ⟨.resultOutOfRange, consumed, 0⟩
    else ⟨.ok, consumed, v⟩

/-- Numeric branch of FieldProxy::operator V for an integral request type
(src/DynamicFields.hpp lines 94-123): empty text is EmptyValue, then the
from_chars error codes map to InvalidFormat / OutOfRange, and a parse that
does not consume the whole string is PartialConversion. -/
def decodeIntField (str : String) : Except Err Int :=
  if str.isEmpty then .error .EmptyValue
  else
    let r := fromCharsInt64 str
    match r.ec with
    | .invalidArgument => .error .InvalidFormat
    | .resultOutOfRange => .error .OutOfRange
    | .ok => if r.consumed ≠ str.length then .error .PartialConversion else .ok r.value

/-- Largest finite IEEE double, (2 ^ 53 - 1) * 2 ^ 971, as a rational
(the power is spelled out as a literal so that it evaluates directly). -/
def maxDouble : Rat := mkRat 179769313486231570814527423731704356798070567525844996598917476803157260780028538760589558632766878171540458953514382464234321326889464182768467546703537516986049910576551282076245490090389328944075868508455133942304583236903222948165808559332123348274797826204144723168738177180919299881250404026184124858368 1

/-- Result of parsing a decimal floating literal: exact rational value,
characters consumed, whether a valid number was found, and whether its
magnitude overflows the double range. -/
structure FloatParse where
  value : Rat
  consumed : Nat
  valid : Bool
  overflow : Bool
deriving DecidableEq, Repr

/-- Decimal floating-point pattern shared by std::from_chars for double
(`allowPlus = false`) and strtod / std::stod (`allowPlus = true`, after its
own whitespace skip): optional sign, digits with an optional fractional
part, optional `e`/`E` exponent. The mantissa must contain at least one
digit. The value is kept as the exact rational `mantissa * 10 ^ exponent`;
the rounding of that rational to the nearest double, the overflow/underflow
boundary cases, and the textual `inf` / `nan` / hexfloat spellings are not
modelled — no claim in this development evaluates a nonempty double parse. -/
def parseDecimalFloat (cs : List Char) (allowPlus : Bool) : FloatParse :=
  let (neg, body, signLen) :=
    match cs with
    | '-' :: rest => (true, rest, 1)
    | '+' :: rest => if allowPlus then (false, rest, 1) else (false, cs, 0)
    | _ => (false, cs, 0)
  let intDigits := body.takeWhile Char.isDigit
  let rest1 := body.drop intDigits.length
  let fracDigits :=
    match rest1 with
    | '.' :: r => r.takeWhile Char.isDigit
    | _ => []
  let fracLen := match rest1 with
    | '.' :: _ => 1 + fracDigits.length
    | _ => 0
  if intDigits = [] ∧ fracDigits = [] then ⟨0, 0, false, false⟩
  else
    let rest2 := rest1.drop fracLen
    let expPart : Int × Nat :=
      match rest2 with
      | e :: r =>
        if e = 'e' ∨ e = 'E' then
          let (eneg, ebody, esignLen) :=
            match r with
            | '-' :: rr => (true, rr, 1)
            | '+' :: rr => (false, rr, 1)
            | _ => (false, r, 0)
          let eDigits := ebody.takeWhile Char.isDigit
          if eDigits = [] then (0, 0)
          else ((if eneg then -(digitsVal eDigits : Int) else (digitsVal eDigits : Int)),
                1 + esignLen + eDigits.length)
        else (0, 0)
      | [] => (0, 0)
    let mantissa : Nat := digitsVal intDigits * 10 ^ fracDigits.length + digitsVal fracDigits
    let mag : Rat :=
      mkRat ((mantissa * 10 ^ expPart.1.toNat : Nat) : Int)
            (10 ^ fracDigits.length * 10 ^ (-expPart.1).toNat)
    let v := if neg then -mag else mag
    let consumed := signLen + intDigits.length + fracLen + expPart.2
    if maxDouble < mag then ⟨0, consumed, true, true⟩
    else ⟨v, consumed, true, false⟩

/-- std::from_chars for double, as called in FieldProxy::operator V for a
floating-point request type. -/
def fromCharsDouble (s : String) : Errc × Nat × Rat :=
  let p := parseDecimalFloat s.data false
  if ¬p.valid then (.invalidArgument, 0, 0)
  else if p.overflow then (.resultOutOfRange, p.consumed, 0)
  else (.ok, p.consumed, p.value)

/-- Numeric branch of FieldProxy::operator V for a floating-point request
type: same error ladder as the integral branch. -/
def decodeDoubleField (str : String) : Except Err Rat :=
  if str.isEmpty then .error .EmptyValue
  else
    let (ec, consumed, value) := fromCharsDouble str
    match ec with
    | .invalidArgument => .error .InvalidFormat
    | .resultOutOfRange => .error .OutOfRange
    | .ok => if consumed ≠ str.length then .error .PartialConversion else .ok value

/-- Text written into the property bag by FieldProxy::operator=
(src/DynamicFields.hpp lines 59-66): arithmetic values are formatted with
std::format("{}", value), strings pass through unchanged. The double case
in the source prints the shortest round-trip decimal form; no claim
evaluates it, so the model only supplies some total formatting of the
rational value. -/
def encodeValue : TypedValue → String
  | .vint n => formatInt n
  | .vnum q => formatInt q.num ++ "/" ++ formatInt (q.den : Int)
  | .vstr s => s

/-- DynamicWrapper::operator[] followed by FieldProxy::operator=
(src/DynamicFields.hpp lines 129-144 then 47-68): schema lookup first
(FieldNotDeclared), then the getTypeId check (TypeMismatch), then encode
and overwrite the bag entry. -/
def DynamicWrapper.set (schema : SchemaDef) (bag : Bag) (key : String)
    (v : TypedValue) : Except Err Bag :=
  match lookupKey schema key with
  | none => .error .FieldNotDeclared
  | some ty =>
    if typeIdOf v ≠ ty then .error .TypeMismatch
    else .ok (bagInsert bag key (encodeValue v))

/-- DynamicWrapper::operator[] followed by FieldProxy::operator V
(src/DynamicFields.hpp lines 129-144 then 71-125): schema lookup first
(FieldNotDeclared), then the getTypeId check (TypeMismatch), then the text
is read through GetMetadataValue (empty string when absent) and decoded:
strings pass through, numeric types go through the strict from_chars
ladder. -/
def DynamicWrapper.get (schema : SchemaDef) (bag : Bag) (key : String)
    (req : ReqType) : Except Err TypedValue :=
  match lookupKey schema key with
  | none => .error .FieldNotDeclared
  | some ty =>
    if getTypeId req ≠ ty then .error .TypeMismatch
    else
      let str := getMetadataValue bag key
      match req with
      | .RString => .ok (.vstr str)
      | .RInt => (decodeIntField str).map .vint
      | .RDouble => (decodeDoubleField str).map .vnum

/-- toLowerCopy from wrappers/websockets/JsonUtils.cpp: ASCII lowercase
(std::tolower in the C locale), applied per character. -/
def toLowerCopy (s : String) : String := String.mk (s.data.map Char.toLower)

/-- toUpperCopy from wrappers/websockets/JsonUtils.cpp: ASCII uppercase. -/
def toUpperCopy (s : String) : String := String.mk (s.data.map Char.toUpper)

/-- Power-of-two scale of an int64 magnitude above 2 ^ 53: the `e` with
2 ^ (52 + e) ≤ m < 2 ^ (53 + e), spelled as a case cascade over the int64
range so that it evaluates structurally. -/
def doubleScale (m : Nat) : Nat :=
  if m < 2 ^ 54 then 1
  else if m < 2 ^ 55 then 2
  else if m < 2 ^ 56 then 3
  else if m < 2 ^ 57 then 4
  else if m < 2 ^ 58 then 5
  else if m < 2 ^ 59 then 6
  else if m < 2 ^ 60 then 7
  else if m < 2 ^ 61 then 8
  else if m < 2 ^ 62 then 9
  else if m < 2 ^ 63 then 10
  else 11

/-- Conversion of an int64 to IEEE double (nlohmann json `get<double>()` on
an integer value, i.e. `static_cast<double>` on x86/ARM): round to nearest,
ties to even, expressed on the exact integer result. For magnitudes at or
below 2 ^ 53 the conversion is exact. All integers in the model originate
from int64 parses, so the scale cascade covers every reachable magnitude. -/
def roundToDouble (n : Int) : Int :=
  let m := n.natAbs
  if m ≤ 2 ^ 53 then n
  else
    let e := doubleScale m
    let q := m / 2 ^ e
    let r := m % 2 ^ e
    let half := 2 ^ (e - 1)
    let q2 := if half < r ∨ (r = half ∧ q % 2 = 1) then q + 1 else q
    if n < 0 then -((q2 * 2 ^ e : Nat) : Int) else ((q2 * 2 ^ e : Nat) : Int)

/-- requireNumber from wrappers/websockets/JsonUtils.cpp lines 118-125:
a json value must be numeric (else the ApiError mapped to TypeMismatch),
and is read as a double — an integer json value is cast to double here. -/
def requireNumber : TypedValue → Except Err Rat
  | .vint n => .ok (mkRat (roundToDouble n) 1)
  | .vnum q => .ok q
  | .vstr _ => .error .TypeMismatch

/-- compareNumbers from wrappers/websockets/JsonUtils.cpp lines 127-137. -/
def compareNumbers (lhs rhs : Rat) (op : String) : Except Err Bool :=
  if op = "==" then .ok (decide (lhs = rhs))
  else if op = "!=" then .ok (decide (lhs ≠ rhs))
  else if op = ">" then .ok (decide (rhs < lhs))
  else if op = ">=" then .ok (decide (rhs ≤ lhs))
  else if op = "<" then .ok (decide (lhs < rhs))
  else if op = "<=" then .ok (decide (lhs ≤ rhs))
  else .error .UnsupportedOperator

/-- Substring occurrence, models `lhs.find(rhs) != std::string::npos`:
true when the needle occurs (at any position, including the empty needle). -/
def substrSearch (hay needle : List Char) : Bool :=
  match hay with
  | [] => needle.isEmpty
  | _ :: t => needle.isPrefixOf hay || substrSearch t needle

/-- compareStrings from wrappers/websockets/JsonUtils.cpp lines 139-148
(`contains` is `lhs.find(rhs) != npos`, i.e. substring containment). -/
def compareStrings (lhs rhs : String) (opLower : String) : Except Err Bool :=
  if opLower = "==" then .ok (lhs == rhs)
  else if opLower = "!=" then .ok (lhs != rhs)
  else if opLower = "contains" then .ok (substrSearch lhs.data rhs.data)
  else if opLower = "starts_with" then .ok (lhs.startsWith rhs)
  else if opLower = "ends_with" then .ok (lhs.endsWith rhs)
  else .error .UnsupportedOperator

/-- Typed snapshot of one entity (the json object built by
materializeEntityData): field name to decoded value. -/
abbrev EntityData := List (String × TypedValue)

/-- Predicate tree (spec section 3): a leaf `{field, op, val}` or a
combinator `{op, rules}`. The source distinguishes the two by the presence
of the "field" key on the (already shape-validated) json node. -/
inductive LogicNode where
  | leaf (field op : String) (val : TypedValue)
  | comb (op : String) (rules : List LogicNode)

/-- Numeric branch of the leaf case (JsonUtils.cpp lines 194-198): both the
stored value and the literal go through requireNumber (double conversion)
and then compareNumbers. -/
def evalNumericLeaf (lhs val : TypedValue) (op : String) : Except Err Bool := do
  let l ← requireNumber lhs
  let r ← requireNumber val
  compareNumbers l r op

mutual

/-- evaluateLogicNode from wrappers/websockets/JsonUtils.cpp lines 150-228.
Leaf: schema lookup (FieldNotDeclared), absent data field gives `false`,
then dispatch on the declared type: String fields require string operands
on both sides (else TypeMismatch) and use compareStrings with the operator
lowercased; Int and Double fields convert both sides to double and use
compareNumbers with the raw operator. Combinator: empty rules are
EmptyRuleSet, then the uppercased operator selects the short-circuit
conjunction (std::ranges::all_of) or disjunction (any_of), anything else is
UnsupportedOperator. -/
def evaluateLogicNode (entityData : EntityData) (schema : SchemaDef)
    (node : LogicNode) : Except Err Bool :=
  match node with
  | .leaf field op val =>
    match lookupKey schema field with
    | none => .error .FieldNotDeclared
    | some ty =>
      match lookupKey entityData field with
      | none => .ok false
      | some lhs =>
        match ty with
        | .String =>
          match lhs, val with
          | .vstr l, .vstr r => compareStrings l r (toLowerCopy op)
          | _, _ => .error .TypeMismatch
        | .Int => evalNumericLeaf lhs val op
        | .Double => evalNumericLeaf lhs val op
        | .Unknown => .error .UnsupportedFieldType
  | .comb op rules =>
    if rules.isEmpty then .error .EmptyRuleSet
    else
      let opU := toUpperCopy op
      if opU = "AND" then evalAllNodes entityData schema rules
      else if opU = "OR" then evalAnyNodes entityData schema rules
      else .error .UnsupportedOperator
termination_by structural node

/-- std::ranges::all_of over the children: left to right, stopping at the
first child that evaluates to `false`. -/
def evalAllNodes (entityData : EntityData) (schema : SchemaDef)
    (rules : List LogicNode) : Except Err Bool :=
  match rules with
  | [] => .ok true
  | r :: rest => do
      let b ← evaluateLogicNode entityData schema r
      if b then evalAllNodes entityData schema rest else .ok false
termination_by structural rules

/-- std::ranges::any_of over the children: left to right, stopping at the
first child that evaluates to `true`. -/
def evalAnyNodes (entityData : EntityData) (schema : SchemaDef)
    (rules : List LogicNode) : Except Err Bool :=
  match rules with
  | [] => .ok false
  | r :: rest => do
      let b ← evaluateLogicNode entityData schema r
      if b then .ok true else evalAnyNodes entityData schema rest
termination_by structural rules

end

/-- Whitespace skipped by strtoll / strtod (C isspace, default locale). -/
def isCSpace (c : Char) : Bool :=
  c = ' ' || c = '\t' || c = '\n' || c.toNat = 11 || c.toNat = 12 || c = '\r'

/-- std::stoll (base 10): strtoll semantics — skip leading whitespace,
optional '+' or '-', then the longest run of decimal digits; the run may be
followed by arbitrary trailing text, which is ignored (no strictness).
`none` models the thrown invalid_argument (no digits) or out_of_range
(value does not fit long long), both caught by decodeStoredValue. -/
def stollOpt (s : String) : Option Int :=
  let body := s.data.dropWhile isCSpace
  let (neg, body2) :=
    match body with
    | '-' :: r => (true, r)
    | '+' :: r => (false, r)
    | _ => (false, body)
  let digits := body2.takeWhile Char.isDigit
  if digits = [] then none
  else
    let n : Int := (digitsVal digits : Nat)
    let v : Int := if neg then -n else n
    if v < -(2 ^ 63) ∨ (2 ^ 63 : Int) ≤ v then none else some v

/-- std::stod: strtod semantics — skip leading whitespace, then the decimal
floating pattern (prefix parse, trailing text ignored); `none` models the
thrown invalid_argument / out_of_range, caught by decodeStoredValue. -/
def stodOpt (s : String) : Option Rat :=
  let p := parseDecimalFloat (s.data.dropWhile isCSpace) true
  if ¬p.valid ∨ p.overflow then none else some p.value

/-- decodeStoredValue from wrappers/websockets/JsonUtils.cpp lines 89-112:
String passes the raw text through; Int uses std::stoll, Double uses
std::stod, any exception is swallowed into nullopt (the `catch (...)`). -/
def decodeStoredValue (raw : String) (type : FieldType) : Option TypedValue :=
  match type with
  | .String => some (.vstr raw)
  | .Int => (stollOpt raw).map .vint
  | .Double => (stodOpt raw).map .vnum
  | .Unknown => none

/-- materializeEntityData from wrappers/websockets/JsonUtils.hpp lines
64-83: for every schema field present in the entity's metadata, decode the
stored text; fields whose decode fails are skipped, the rest are exposed
under their field names. -/
def materializeEntityData (meta : Bag) (schema : SchemaDef) : EntityData :=
  match schema with
  | [] => []
  | (field, ty) :: rest =>
    let acc := materializeEntityData meta rest
    match lookupKey meta field with
    | none => acc
    | some raw =>
      match decodeStoredValue raw ty with
      | none => acc
      | some v => (field, v) :: acc

/-- SecScoreDB::getStudent(Predicate&&) from src/SecScoreDB.h lines 69-100:
walk every stored entity, build its wrapper, run the predicate; entities on
which the predicate returns true are collected, a thrown exception is
caught and the entity skipped (`continue`). SecScoreDB::getGroup has the
same body over the group map. The predicate receives the wrapper, i.e. the
entity's bag and the schema, and models a callable that may throw. -/
def SecScoreDB.getStudentPred (stu : List (Int × Bag)) (schema : SchemaDef)
    (pred : Bag → SchemaDef → Except Err Bool) : List (Int × Bag) :=
  match stu with
  | [] => []
  | (id, e) :: rest =>
    match pred e schema with
    | .ok true => (id, e) :: SecScoreDB.getStudentPred rest schema pred
    | _ => SecScoreDB.getStudentPred rest schema pred

/-- SecScoreDB::deleteStudent(Predicate&&) from src/SecScoreDB.h lines
130-152: std::erase_if over the map — an entity is erased when the
predicate returns true; a thrown exception is caught and mapped to `false`
(the entity is kept). Returns the remaining entities and the erased count.
SecScoreDB::deleteGroup has the same body over the group map. -/
def SecScoreDB.deleteStudentPred (stu : List (Int × Bag)) (schema : SchemaDef)
    (pred : Bag → SchemaDef → Except Err Bool) : List (Int × Bag) × Nat :=
  match stu with
  | [] => ([], 0)
  | (id, e) :: rest =>
    let tail := SecScoreDB.deleteStudentPred rest schema pred
    match pred e schema with
    | .ok true => (tail.1, tail.2 + 1)
    | .ok false => ((id, e) :: tail.1, tail.2)
    | .error _ => ((id, e) :: tail.1, tail.2)

/-! Helper lemmas: association lists, decimal digits, and the strict
integer parse of its own formatting. -/

theorem lookupKey_bagInsert_self (bag : Bag) (key val : String) :
    lookupKey (bagInsert bag key val) key = some val := by
  induction bag with
  | nil => simp [bagInsert, lookupKey]
  | cons kv rest ih =>
    obtain ⟨k, v⟩ := kv
    by_cases h : k = key
    · simp [bagInsert, h, lookupKey]
    · simp [bagInsert, h, lookupKey, ih]

theorem getMetadataValue_bagInsert_self (bag : Bag) (key val : String) :
    getMetadataValue (bagInsert bag key val) key = val := by
  simp [getMetadataValue, lookupKey_bagInsert_self]

theorem natDigitsAux_congr (fuel₁ : Nat) : ∀ (fuel₂ n : Nat), n < fuel₁ → n < fuel₂ →
    natDigitsAux fuel₁ n = natDigitsAux fuel₂ n := by
  induction fuel₁ with
  | zero => intro _ n h _; omega
  | succ f₁ ih =>
    intro fuel₂ n h₁ h₂
    cases fuel₂ with
    | zero => omega
    | succ f₂ =>
      by_cases h : n < 10
      · simp [natDigitsAux, h]
      · have hd : n / 10 < n := Nat.div_lt_self (by omega) (by omega)
        simp only [natDigitsAux, if_neg h]
        rw [ih f₂ (n / 10) (by omega) (by omega)]

theorem natDigits_of_lt {n : Nat} (h : n < 10) :
    natDigits n = [Nat.digitChar n] := by
  simp [natDigits, natDigitsAux, h]

theorem natDigits_of_ge {n : Nat} (h : 10 ≤ n) :
    natDigits n = natDigits (n / 10) ++ [Nat.digitChar (n % 10)] := by
  have hd : n / 10 < n := Nat.div_lt_self (by omega) (by omega)
  show natDigitsAux (n + 1) n = _
  have hstep : natDigitsAux (n + 1) n
      = natDigitsAux n (n / 10) ++ [Nat.digitChar (n % 10)] := by
    simp [natDigitsAux, h, Nat.not_lt.mpr h]
  rw [hstep, natDigitsAux_congr n (n / 10 + 1) (n / 10) (by omega) (by omega)]
  rfl

theorem digitChar_isDigit : ∀ d ∈ List.range 10, (Nat.digitChar d).isDigit = true := by
  decide

theorem digitChar_sub48 : ∀ d ∈ List.range 10, (Nat.digitChar d).toNat - 48 = d := by
  decide

theorem natDigits_all_digits (n : Nat) : ∀ c ∈ natDigits n, c.isDigit = true := by
  induction n using Nat.strong_induction_on with
  | _ n ih =>
    by_cases h : n < 10
    · rw [natDigits_of_lt h]
      intro c hc
      simp only [List.mem_singleton] at hc
      subst hc
      exact digitChar_isDigit _ (List.mem_range.mpr h)
    · rw [natDigits_of_ge (by omega)]
      intro c hc
      rcases List.mem_append.mp hc with h1 | h2
      · exact ih (n / 10) (Nat.div_lt_self (by omega) (by omega)) c h1
      · simp only [List.mem_singleton] at h2
        subst h2
        exact digitChar_isDigit _ (List.mem_range.mpr (Nat.mod_lt _ (by omega)))

theorem natDigits_ne_nil (n : Nat) : natDigits n ≠ [] := by
  by_cases h : n < 10
  · rw [natDigits_of_lt h]; simp
  · rw [natDigits_of_ge (by omega)]; simp

theorem digitsVal_append_singleton (l : List Char) (c : Char) :
    digitsVal (l ++ [c]) = 10 * digitsVal l + (c.toNat - 48) := by
  simp [digitsVal, List.foldl_append]

theorem digitsVal_natDigits (n : Nat) : digitsVal (natDigits n) = n := by
  induction n using Nat.strong_induction_on with
  | _ n ih =>
    by_cases h : n < 10
    · rw [natDigits_of_lt h]
      have := digitChar_sub48 n (List.mem_range.mpr h)
      simp [digitsVal, this]
    · rw [natDigits_of_ge (by omega), digitsVal_append_singleton,
        ih (n / 10) (Nat.div_lt_self (by omega) (by omega)),
        digitChar_sub48 (n % 10) (List.mem_range.mpr (Nat.mod_lt _ (by omega)))]
      omega

theorem takeWhile_eq_self_of_all {p : Char → Bool} (l : List Char)
    (h : ∀ c ∈ l, p c = true) : l.takeWhile p = l := by
  induction l with
  | nil => rfl
  | cons c t ih =>
    rw [List.takeWhile_cons_of_pos (h c (by simp))]
    rw [ih (fun x hx => h x (by simp [hx]))]

theorem splitSign_of_digits (cs : List Char) (h : ∀ c ∈ cs, c.isDigit = true) :
    splitSign cs = (false, cs, 0) := by
  cases cs with
  | nil => rfl
  | cons c t =>
    have hc : c.isDigit = true := h c (by simp)
    have hne : c ≠ '-' := by
      intro hch
      subst hch
      exact absurd hc (by decide)
    simp [splitSign, hne]

theorem formatInt_nonneg_data {v : Int} (h : 0 ≤ v) :
    (formatInt v).data = natDigits v.natAbs := by
  rw [formatInt, if_neg (by omega)]

theorem formatInt_neg_data {v : Int} (h : v < 0) :
    (formatInt v).data = '-' :: natDigits v.natAbs := by
  rw [formatInt, if_pos h, String.data_append]
  rfl

theorem fromCharsInt64_digits (s : String) (m : Nat)
    (hdata : s.data = natDigits m) (hm : m < 2 ^ 63) :
    fromCharsInt64 s = ⟨.ok, s.data.length, (m : Int)⟩ := by
  have hall := natDigits_all_digits m
  have hsplit : splitSign s.data = (false, s.data, 0) := by
    rw [hdata]
    exact splitSign_of_digits _ hall
  have htake : s.data.takeWhile Char.isDigit = s.data := by
    rw [hdata]
    exact takeWhile_eq_self_of_all _ hall
  have hne : s.data ≠ [] := by rw [hdata]; exact natDigits_ne_nil m
  have hval : digitsVal s.data = m := by rw [hdata]; exact digitsVal_natDigits m
  have hrange : ¬ ((m : Int) < -(2 ^ 63) ∨ (2 ^ 63 : Int) ≤ (m : Int)) := by
    push_cast
    omega
  simp only [fromCharsInt64, hsplit, htake, hval, if_neg hne, if_neg hrange]
  simp
  omega

theorem fromCharsInt64_neg_digits (s : String) (m : Nat)
    (hdata : s.data = '-' :: natDigits m) (hm : m ≤ 2 ^ 63) :
    fromCharsInt64 s = ⟨.ok, s.data.length, -(m : Int)⟩ := by
  have hall := natDigits_all_digits m
  have hsplit : splitSign s.data = (true, natDigits m, 1) := by
    rw [hdata]
    simp [splitSign]
  have htake : (natDigits m).takeWhile Char.isDigit = natDigits m :=
    takeWhile_eq_self_of_all _ hall
  have hne : natDigits m ≠ [] := natDigits_ne_nil m
  have hval : digitsVal (natDigits m) = m := digitsVal_natDigits m
  simp only [fromCharsInt64, hsplit, htake, hval, if_neg hne]
  rw [hdata]
  simp
  rw [if_neg (by omega)]
  simp [Nat.add_comm]

theorem decodeIntField_formatInt (v : Int) (h₁ : -(2 ^ 63) ≤ v) (h₂ : v < 2 ^ 63) :
    decodeIntField (formatInt v) = .ok v := by
  have hne : (formatInt v).data ≠ [] := by
    rcases le_or_lt 0 v with hv | hv
    · rw [formatInt_nonneg_data hv]; exact natDigits_ne_nil _
    · rw [formatInt_neg_data hv]; simp
  have hempty : ¬ ((formatInt v).isEmpty = true) := by
    intro hc
    have hs : formatInt v = "" := (String.isEmpty_iff _).mp hc
    apply hne
    rw [hs]
  have hlen : (formatInt v).data.length = (formatInt v).length := rfl
  have hfc : fromCharsInt64 (formatInt v)
      = ⟨.ok, (formatInt v).length, v⟩ := by
    rcases le_or_lt 0 v with hv | hv
    · have hd := fromCharsInt64_digits (formatInt v) v.natAbs
        (formatInt_nonneg_data hv) (by omega)
      rw [hd, hlen]
      congr 1
      omega
    · have hd := fromCharsInt64_neg_digits (formatInt v) v.natAbs
        (formatInt_neg_data hv) (by omega)
      rw [hd, hlen]
      congr 1
      omega
  rw [decodeIntField, if_neg hempty, hfc]
  simp

/-! Claim theorems. -/

/-- C1: for every field name and requested type, get and set fail with
FieldNotDeclared when the name is absent from the schema — for every
request type and every value, so the failure precedes any codec work —
and when the field is declared but the request's getTypeId differs from
the declared FieldType, both fail with TypeMismatch (Integer vs Float in
either direction, Text into an Integer field, and so on). -/
theorem claim_C1_schema_type_enforcement (schema : SchemaDef) (bag : Bag)
    (key : String) :
    (lookupKey schema key = none →
      (∀ req, DynamicWrapper.get schema bag key req = .error .FieldNotDeclared) ∧
      (∀ v, DynamicWrapper.set schema bag key v = .error .FieldNotDeclared)) ∧
    (∀ ty, lookupKey schema key = some ty →
      (∀ req, getTypeId req ≠ ty →
        DynamicWrapper.get schema bag key req = .error .TypeMismatch) ∧
      (∀ v, typeIdOf v ≠ ty →
        DynamicWrapper.set schema bag key v = .error .TypeMismatch)) := by
  refine ⟨fun h => ⟨fun req => ?_, fun v => ?_⟩,
    fun ty h => ⟨fun req hne => ?_, fun v hne => ?_⟩⟩
  · simp [DynamicWrapper.get, h]
  · simp [DynamicWrapper.set, h]
  · simp [DynamicWrapper.get, h, hne]
  · simp [DynamicWrapper.set, h, hne]

theorem claim_C1_witness :
    DynamicWrapper.get [("age", FieldType.Int)] [] "missing" .RInt
      = .error .FieldNotDeclared ∧
    DynamicWrapper.set [("age", FieldType.Int)] [] "missing" (.vstr "x")
      = .error .FieldNotDeclared ∧
    DynamicWrapper.get [("age", FieldType.Int)] [] "age" .RDouble
      = .error .TypeMismatch ∧
    DynamicWrapper.get [("score", FieldType.Double)] [] "score" .RInt
      = .error .TypeMismatch ∧
    DynamicWrapper.set [("age", FieldType.Int)] [] "age" (.vstr "twenty")
      = .error .TypeMismatch :=
  ⟨((claim_C1_schema_type_enforcement _ _ _).1 (by decide)).1 .RInt,
   ((claim_C1_schema_type_enforcement _ _ _).1 (by decide)).2 (.vstr "x"),
   ((claim_C1_schema_type_enforcement _ _ _).2 .Int (by decide)).1 .RDouble (by decide),
   ((claim_C1_schema_type_enforcement _ _ _).2 .Double (by decide)).1 .RInt (by decide),
   ((claim_C1_schema_type_enforcement _ _ _).2 .Int (by decide)).2 (.vstr "twenty") (by decide)⟩

/-- C2: the accessor's Integer read path is strict: "123abc" fails with
PartialConversion (never truncated to 123), "" fails with EmptyValue,
"abc" fails with InvalidFormat, and a numeric string exceeding int64
(2 ^ 63) fails with OutOfRange; the four error kinds are distinct. -/
theorem claim_C2_strict_integer_decode :
    DynamicWrapper.get [("f", FieldType.Int)] [("f", "123abc")] "f" .RInt
      = .error .PartialConversion ∧
    DynamicWrapper.get [("f", FieldType.Int)] [("f", "")] "f" .RInt
      = .error .EmptyValue ∧
    DynamicWrapper.get [("f", FieldType.Int)] [("f", "abc")] "f" .RInt
      = .error .InvalidFormat ∧
    DynamicWrapper.get [("f", FieldType.Int)] [("f", "9223372036854775808")] "f" .RInt
      = .error .OutOfRange ∧
    [Err.PartialConversion, Err.EmptyValue, Err.InvalidFormat, Err.OutOfRange].Nodup := by
  exact ⟨by decide, by decide, by decide, by decide, by decide⟩

/-- C6: round trip through the accessor: for every int64 Integer value,
set then get returns exactly the value; for every Text value (the empty
string included), set then get returns exactly the string. -/
theorem claim_C6_round_trip (schema : SchemaDef) (bag : Bag) (key : String) :
    (∀ v : Int, lookupKey schema key = some .Int → -(2 ^ 63) ≤ v → v < 2 ^ 63 →
      (DynamicWrapper.set schema bag key (.vint v)).bind
        (fun bag2 => DynamicWrapper.get schema bag2 key .RInt) = .ok (.vint v)) ∧
    (∀ s : String, lookupKey schema key = some .String →
      (DynamicWrapper.set schema bag key (.vstr s)).bind
        (fun bag2 => DynamicWrapper.get schema bag2 key .RString) = .ok (.vstr s)) := by
  constructor
  · intro v h h₁ h₂
    simp only [DynamicWrapper.set, h, typeIdOf, encodeValue, if_neg, ne_eq,
      not_true_eq_false, not_false_eq_true, reduceIte, Except.bind]
    simp only [DynamicWrapper.get, h, getTypeId, getMetadataValue_bagInsert_self,
      decodeIntField_formatInt v h₁ h₂, ne_eq, not_true_eq_false, not_false_eq_true,
      reduceIte, Except.map]
  · intro s h
    simp only [DynamicWrapper.set, h, typeIdOf, encodeValue, ne_eq,
      not_true_eq_false, not_false_eq_true, reduceIte, Except.bind]
    simp only [DynamicWrapper.get, h, getTypeId, getMetadataValue_bagInsert_self,
      ne_eq, not_true_eq_false, not_false_eq_true, reduceIte]

theorem claim_C6_witness :
    (DynamicWrapper.set [("age", FieldType.Int)] [] "age" (.vint (-42))).bind
      (fun bag2 => DynamicWrapper.get [("age", FieldType.Int)] bag2 "age" .RInt)
      = .ok (.vint (-42)) ∧
    (DynamicWrapper.set [("name", FieldType.String)] [] "name" (.vstr "")).bind
      (fun bag2 => DynamicWrapper.get [("name", FieldType.String)] bag2 "name" .RString)
      = .ok (.vstr "") :=
  ⟨(claim_C6_round_trip _ _ _).1 (-42) (by decide) (by omega) (by omega),
   (claim_C6_round_trip _ _ _).2 "" (by decide)⟩

/-- C7: a declared field that is absent from the property bag reads as if
the stored text were empty: a Text field gets the empty string
successfully, a numeric (Integer or Float) field fails with EmptyValue —
the codec's empty-text error kind, not a separate missing-field error. -/
theorem claim_C7_absent_field_reads (schema : SchemaDef) (bag : Bag)
    (key : String) (ty : FieldType) (hs : lookupKey schema key = some ty)
    (hb : lookupKey bag key = none) :
    (ty = .String → DynamicWrapper.get schema bag key .RString = .ok (.vstr "")) ∧
    (ty = .Int → DynamicWrapper.get schema bag key .RInt = .error .EmptyValue) ∧
    (ty = .Double → DynamicWrapper.get schema bag key .RDouble = .error .EmptyValue) := by
  have hmeta : getMetadataValue bag key = "" := by simp [getMetadataValue, hb]
  have hint : decodeIntField "" = .error .EmptyValue := by decide
  have hdbl : decodeDoubleField "" = .error .EmptyValue := by decide
  refine ⟨fun h => ?_, fun h => ?_, fun h => ?_⟩ <;> subst h <;>
    simp [DynamicWrapper.get, hs, hmeta, getTypeId, hint, hdbl, Except.map]

theorem evalAllNodes_prefix_false (d : EntityData) (s : SchemaDef)
    (pre : List LogicNode) (r : LogicNode) (post : List LogicNode)
    (hpre : ∀ p ∈ pre, evaluateLogicNode d s p = .ok true)
    (hr : evaluateLogicNode d s r = .ok false) :
    evalAllNodes d s (pre ++ r :: post) = .ok false := by
  induction pre with
  | nil => simp [evalAllNodes, hr, Except.bind, bind]
  | cons p t ih =>
    have hp := hpre p (by simp)
    simp only [List.cons_append, evalAllNodes, hp, Except.bind, bind, if_pos]
    exact ih (fun x hx => hpre x (by simp [hx]))

theorem evalAllNodes_all_true (d : EntityData) (s : SchemaDef)
    (l : List LogicNode) (h : ∀ p ∈ l, evaluateLogicNode d s p = .ok true) :
    evalAllNodes d s l = .ok true := by
  induction l with
  | nil => rfl
  | cons p t ih =>
    have hp := h p (by simp)
    simp only [evalAllNodes, hp, Except.bind, bind, if_pos]
    exact ih (fun x hx => h x (by simp [hx]))

theorem evalAnyNodes_prefix_true (d : EntityData) (s : SchemaDef)
    (pre : List LogicNode) (r : LogicNode) (post : List LogicNode)
    (hpre : ∀ p ∈ pre, evaluateLogicNode d s p = .ok false)
    (hr : evaluateLogicNode d s r = .ok true) :
    evalAnyNodes d s (pre ++ r :: post) = .ok true := by
  induction pre with
  | nil => simp [evalAnyNodes, hr, Except.bind, bind]
  | cons p t ih =>
    have hp := hpre p (by simp)
    simp only [List.cons_append, evalAnyNodes, hp, Except.bind, bind, if_pos]
    exact ih (fun x hx => hpre x (by simp [hx]))

theorem evalAnyNodes_all_false (d : EntityData) (s : SchemaDef)
    (l : List LogicNode) (h : ∀ p ∈ l, evaluateLogicNode d s p = .ok false) :
    evalAnyNodes d s l = .ok false := by
  induction l with
  | nil => rfl
  | cons p t ih =>
    have hp := h p (by simp)
    simp only [evalAnyNodes, hp, Except.bind, bind, if_pos]
    exact ih (fun x hx => h x (by simp [hx]))

theorem evaluateLogicNode_comb_ne_nil (d : EntityData) (s : SchemaDef)
    (op : String) (rules : List LogicNode) (hne : rules ≠ []) :
    evaluateLogicNode d s (.comb op rules) =
      (if toUpperCopy op = "AND" then evalAllNodes d s rules
       else if toUpperCopy op = "OR" then evalAnyNodes d s rules
       else .error .UnsupportedOperator) := by
  cases rules with
  | nil => exact absurd rfl hne
  | cons a t => rw [evaluateLogicNode]; rfl

/-- C3: combinator semantics — an empty children list fails with
EmptyRuleSet; a token other than AND/OR (case-insensitively) on a
non-empty list fails with UnsupportedOperator; AND evaluates children left
to right and returns false at the first false child irrespective of the
children after it, and true when all children are true; OR returns true at
the first true child irrespective of the rest, and false when all are
false. -/
theorem claim_C3_combinator_semantics (d : EntityData) (s : SchemaDef)
    (op : String) (rules : List LogicNode) :
    (rules = [] → evaluateLogicNode d s (.comb op rules) = .error .EmptyRuleSet) ∧
    (rules ≠ [] → toUpperCopy op ≠ "AND" → toUpperCopy op ≠ "OR" →
      evaluateLogicNode d s (.comb op rules) = .error .UnsupportedOperator) ∧
    (∀ pre r post, rules = pre ++ r :: post → toUpperCopy op = "AND" →
      (∀ p ∈ pre, evaluateLogicNode d s p = .ok true) →
      evaluateLogicNode d s r = .ok false →
      evaluateLogicNode d s (.comb op rules) = .ok false) ∧
    (rules ≠ [] → toUpperCopy op = "AND" →
      (∀ p ∈ rules, evaluateLogicNode d s p = .ok true) →
      evaluateLogicNode d s (.comb op rules) = .ok true) ∧
    (∀ pre r post, rules = pre ++ r :: post → toUpperCopy op = "OR" →
      (∀ p ∈ pre, evaluateLogicNode d s p = .ok false) →
      evaluateLogicNode d s r = .ok true →
      evaluateLogicNode d s (.comb op rules) = .ok true) ∧
    (rules ≠ [] → toUpperCopy op = "OR" →
      (∀ p ∈ rules, evaluateLogicNode d s p = .ok false) →
      evaluateLogicNode d s (.comb op rules) = .ok false) := by
  refine ⟨fun h => ?_, fun hne h₁ h₂ => ?_, fun pre r post hr hop hpre hlast => ?_,
    fun hne hop hall => ?_, fun pre r post hr hop hpre hlast => ?_,
    fun hne hop hall => ?_⟩
  · subst h; rw [evaluateLogicNode]; rfl
  · rw [evaluateLogicNode_comb_ne_nil d s op rules hne, if_neg h₁, if_neg h₂]
  · have hne : rules ≠ [] := by subst hr; simp
    rw [evaluateLogicNode_comb_ne_nil d s op rules hne, if_pos hop, hr]
    exact evalAllNodes_prefix_false d s pre r post hpre hlast
  · rw [evaluateLogicNode_comb_ne_nil d s op rules hne, if_pos hop]
    exact evalAllNodes_all_true d s rules hall
  · have hne : rules ≠ [] := by subst hr; simp
    have hop' : toUpperCopy op ≠ "AND" := by rw [hop]; decide
    rw [evaluateLogicNode_comb_ne_nil d s op rules hne, if_neg hop', if_pos hop, hr]
    exact evalAnyNodes_prefix_true d s pre r post hpre hlast
  · have hop' : toUpperCopy op ≠ "AND" := by rw [hop]; decide
    rw [evaluateLogicNode_comb_ne_nil d s op rules hne, if_neg hop', if_pos hop]
    exact evalAnyNodes_all_false d s rules hall

theorem claim_C3_witness :
    evaluateLogicNode [] [("x", FieldType.Int)]
      (.comb "AND" [.leaf "x" "==" (.vint 0), .comb "bad" []]) = .ok false ∧
    evaluateLogicNode [] [] (.comb "AND" []) = .error .EmptyRuleSet ∧
    evaluateLogicNode [] [] (.comb "XOR" [.leaf "x" "==" (.vint 0)])
      = .error .UnsupportedOperator :=
  ⟨(claim_C3_combinator_semantics [] [("x", FieldType.Int)] "AND"
      [.leaf "x" "==" (.vint 0), .comb "bad" []]).2.2.1
      [] (.leaf "x" "==" (.vint 0)) [.comb "bad" []] rfl (by decide)
      (by intro p hp; cases hp) (by decide),
   (claim_C3_combinator_semantics [] [] "AND" []).1 rfl,
   (claim_C3_combinator_semantics [] [] "XOR" [.leaf "x" "==" (.vint 0)]).2.1
      (by simp) (by decide) (by decide)⟩

/-- C4: a leaf rule on a field the schema does not declare fails with
FieldNotDeclared (an error, for every snapshot and literal); a leaf on a
declared field that is absent from the snapshot evaluates to false without
any error. -/
theorem claim_C4_leaf_undeclared_and_absent (d : EntityData) (s : SchemaDef)
    (f op : String) (val : TypedValue) :
    (lookupKey s f = none →
      evaluateLogicNode d s (.leaf f op val) = .error .FieldNotDeclared) ∧
    (∀ ty, lookupKey s f = some ty → lookupKey d f = none →
      evaluateLogicNode d s (.leaf f op val) = .ok false) := by
  constructor
  · intro h
    rw [evaluateLogicNode, h]
  · intro ty h hd
    rw [evaluateLogicNode, h, hd]

theorem claim_C4_witness :
    evaluateLogicNode [] [] (.leaf "score" ">" (.vint 0))
      = .error .FieldNotDeclared ∧
    evaluateLogicNode [] [("score", FieldType.Double)] (.leaf "score" ">" (.vint 0))
      = .ok false :=
  ⟨(claim_C4_leaf_undeclared_and_absent [] [] "score" ">" (.vint 0)).1 rfl,
   (claim_C4_leaf_undeclared_and_absent [] [("score", FieldType.Double)]
      "score" ">" (.vint 0)).2 .Double (by decide) rfl⟩

theorem evalNumericLeaf_text (lhs : TypedValue) (str op : String) :
    evalNumericLeaf lhs (.vstr str) op = .error .TypeMismatch := by
  rcases lhs with n | q | l <;> rfl

/-- C8: leaf evaluation on a declared, present field dispatches on the
declared type: a Text field with string operands on both sides goes to the
text comparison (operator lowercased); a Text field compared when either
operand is not a string fails with TypeMismatch; an Integer or Float field
sends both the stored value and the literal through the double coercion
into the numeric comparison, and a Text literal against a numeric field
fails with TypeMismatch. -/
theorem claim_C8_leaf_type_dispatch (d : EntityData) (s : SchemaDef)
    (f op : String) :
    (lookupKey s f = some .String →
      (∀ l r, lookupKey d f = some (.vstr l) →
        evaluateLogicNode d s (.leaf f op (.vstr r))
          = compareStrings l r (toLowerCopy op)) ∧
      (∀ lhs val, lookupKey d f = some lhs →
        typeIdOf lhs ≠ .String ∨ typeIdOf val ≠ .String →
        evaluateLogicNode d s (.leaf f op val) = .error .TypeMismatch)) ∧
    (∀ ty, lookupKey s f = some ty → ty = .Int ∨ ty = .Double →
      (∀ lhs val, lookupKey d f = some lhs →
        evaluateLogicNode d s (.leaf f op val) = evalNumericLeaf lhs val op) ∧
      (∀ lhs str, lookupKey d f = some lhs →
        evaluateLogicNode d s (.leaf f op (.vstr str)) = .error .TypeMismatch)) := by
  constructor
  · intro hs
    constructor
    · intro l r hd
      rw [evaluateLogicNode, hs, hd]
    · intro lhs val hd hty
      rw [evaluateLogicNode, hs, hd]
      rcases lhs with n | q | l <;> rcases val with m | p | r <;>
        first
        | rfl
        | (simp [typeIdOf] at hty)
  · intro ty hs hnum
    have hdisp : ∀ lhs val, lookupKey d f = some lhs →
        evaluateLogicNode d s (.leaf f op val) = evalNumericLeaf lhs val op := by
      intro lhs val hd
      rcases hnum with rfl | rfl <;> rw [evaluateLogicNode, hs, hd]
    refine ⟨hdisp, fun lhs str hd => ?_⟩
    rw [hdisp lhs (.vstr str) hd, evalNumericLeaf_text]

theorem claim_C8_witness :
    evaluateLogicNode [("name", .vstr "Alice")] [("name", FieldType.String)]
      (.leaf "name" "CONTAINS" (.vstr "lic"))
      = compareStrings "Alice" "lic" (toLowerCopy "CONTAINS") ∧
    evaluateLogicNode [("name", .vstr "Alice")] [("name", FieldType.String)]
      (.leaf "name" "==" (.vint 3)) = .error .TypeMismatch ∧
    evaluateLogicNode [("age", .vint 20)] [("age", FieldType.Int)]
      (.leaf "age" ">=" (.vint 18)) = evalNumericLeaf (.vint 20) (.vint 18) ">=" ∧
    evaluateLogicNode [("age", .vint 20)] [("age", FieldType.Int)]
      (.leaf "age" "==" (.vstr "20")) = .error .TypeMismatch :=
  ⟨((claim_C8_leaf_type_dispatch _ _ "name" "CONTAINS").1 (by decide)).1
      "Alice" "lic" (by decide),
   ((claim_C8_leaf_type_dispatch _ _ "name" "==").1 (by decide)).2
      (.vstr "Alice") (.vint 3) (by decide) (by decide),
   ((claim_C8_leaf_type_dispatch _ _ "age" ">=").2 .Int (by decide) (.inl rfl)).1
      (.vint 20) (.vint 18) (by decide),
   ((claim_C8_leaf_type_dispatch _ _ "age" "==").2 .Int (by decide) (.inl rfl)).2
      (.vint 20) "20" (by decide)⟩

/-- C10: a numeric leaf comparison converts both the stored value and the
literal to double (requireNumber applies the int64-to-double rounding to
integer operands before compareNumbers); consequently the distinct int64
values 2 ^ 54 and 2 ^ 54 + 1 — both of magnitude above 2 ^ 53 and within
int64 — make an "==" leaf evaluate to true and a "!=" leaf to false. -/
theorem claim_C10_numeric_double_collision :
    (∀ (a b : Int) (op : String),
      evalNumericLeaf (.vint a) (.vint b) op
        = compareNumbers (mkRat (roundToDouble a) 1) (mkRat (roundToDouble b) 1) op) ∧
    ((2 ^ 54 : Int) ≠ 2 ^ 54 + 1) ∧ ((2 ^ 53 : Int) < 2 ^ 54) ∧
    ((2 ^ 53 : Int) < 2 ^ 54 + 1) ∧ ((2 ^ 54 + 1 : Int) < 2 ^ 63) ∧
    evaluateLogicNode [("x", .vint (2 ^ 54))] [("x", FieldType.Int)]
      (.leaf "x" "==" (.vint (2 ^ 54 + 1))) = .ok true ∧
    evaluateLogicNode [("x", .vint (2 ^ 54))] [("x", FieldType.Int)]
      (.leaf "x" "!=" (.vint (2 ^ 54 + 1))) = .ok false :=
  ⟨fun _ _ _ => rfl, by decide, by decide, by decide, by decide, by decide, by decide⟩

theorem lookupKey_materialize_not_mem (meta : Bag) (schema : SchemaDef)
    (f : String) (h : f ∉ schema.map Prod.fst) :
    lookupKey (materializeEntityData meta schema) f = none := by
  induction schema with
  | nil => rfl
  | cons gt rest ih =>
    obtain ⟨g, ty⟩ := gt
    have hg : g ≠ f := by
      intro he
      exact h (by simp [he])
    have hrest : f ∉ rest.map Prod.fst := fun hm => h (by simp [hm])
    simp only [materializeEntityData]
    cases lookupKey meta g with
    | none => exact ih hrest
    | some raw =>
      dsimp only
      cases decodeStoredValue raw ty with
      | none => exact ih hrest
      | some v =>
        dsimp only
        simp [lookupKey, hg, ih hrest]

/-- C5 (amended): the snapshot producer decodes stored text with the
lenient strtoll/strtod prefix rules rather than the strict typed-access
codec — "123abc" under an Integer field decodes to 123 instead of failing —
and every field whose decode does fail (no numeric prefix, out of range) is
omitted from the snapshot while the remaining fields are still decoded and
exposed: a single corrupt field never aborts the whole snapshot. -/
theorem claim_C5_lenient_snapshot :
    (∀ (meta : Bag) (schema : SchemaDef) (f : String) (ty : FieldType),
      (schema.map Prod.fst).Nodup → lookupKey schema f = some ty →
      lookupKey (materializeEntityData meta schema) f
        = (lookupKey meta f).bind (fun raw => decodeStoredValue raw ty)) ∧
    decodeStoredValue "123abc" FieldType.Int = some (.vint 123) ∧
    decodeStoredValue "abc" FieldType.Int = none := by
  refine ⟨?_, by decide, by decide⟩
  intro meta schema f ty hnd hf
  induction schema with
  | nil => cases hf
  | cons gt rest ih =>
    obtain ⟨g, ty'⟩ := gt
    rw [List.map_cons, List.nodup_cons] at hnd
    by_cases hgf : g = f
    · subst hgf
      have hty : ty' = ty := by simpa [lookupKey] using hf
      subst hty
      simp only [materializeEntityData]
      cases hmeta : lookupKey meta g with
      | none =>
        dsimp only
        simp [lookupKey_materialize_not_mem meta rest g hnd.1]
      | some raw =>
        dsimp only
        cases hdec : decodeStoredValue raw ty' with
        | none =>
          dsimp only
          simp [lookupKey_materialize_not_mem meta rest g hnd.1, hdec]
        | some v =>
          dsimp only
          simp [lookupKey, hdec]
    · have hf' : lookupKey rest f = some ty := by
        simpa [lookupKey, hgf] using hf
      simp only [materializeEntityData]
      cases lookupKey meta g with
      | none => exact ih hnd.2 hf'
      | some raw =>
        dsimp only
        cases decodeStoredValue raw ty' with
        | none => exact ih hnd.2 hf'
        | some v =>
          dsimp only
          simp [lookupKey, hgf, ih hnd.2 hf']

theorem claim_C5_witness :
    lookupKey (materializeEntityData [("a", "xx"), ("b", "5")]
        [("a", FieldType.Int), ("b", FieldType.Int)]) "b"
      = some (TypedValue.vint 5) := by
  rw [(claim_C5_lenient_snapshot).1 [("a", "xx"), ("b", "5")]
      [("a", FieldType.Int), ("b", FieldType.Int)] "b" .Int (by decide) (by decide)]
  decide

/-- C5 counterexample: the claim says a stored "123abc" under an Integer
field fails to decode and is omitted from the snapshot; in the code
std::stoll truncates it to 123 and the snapshot exposes that value. -/
theorem claim_C5_counterexample :
    materializeEntityData [("a", "123abc")] [("a", FieldType.Int)]
      = [("a", TypedValue.vint 123)] := by decide

theorem getStudentPred_mem (stu : List (Int × Bag)) (schema : SchemaDef)
    (pred : Bag → SchemaDef → Except Err Bool) (x : Int × Bag) :
    x ∈ SecScoreDB.getStudentPred stu schema pred ↔
      x ∈ stu ∧ pred x.2 schema = .ok true := by
  induction stu with
  | nil => simp [SecScoreDB.getStudentPred]
  | cons e rest ih =>
    obtain ⟨id, bag⟩ := e
    simp only [SecScoreDB.getStudentPred]
    cases hp : pred bag schema with
    | ok b =>
      cases b with
      | true =>
        simp only [List.mem_cons, ih]
        constructor
        · rintro (rfl | ⟨hx, hpx⟩)
          · exact ⟨Or.inl rfl, hp⟩
          · exact ⟨Or.inr hx, hpx⟩
        · rintro ⟨rfl | hx, hpx⟩
          · exact Or.inl rfl
          · exact Or.inr ⟨hx, hpx⟩
      | false =>
        rw [ih]
        simp only [List.mem_cons]
        constructor
        · rintro ⟨hx, hpx⟩
          exact ⟨Or.inr hx, hpx⟩
        · rintro ⟨rfl | hx, hpx⟩
          · rw [hp] at hpx
            simp at hpx
          · exact ⟨hx, hpx⟩
    | error err =>
      rw [ih]
      simp only [List.mem_cons]
      constructor
      · rintro ⟨hx, hpx⟩
        exact ⟨Or.inr hx, hpx⟩
      · rintro ⟨rfl | hx, hpx⟩
        · rw [hp] at hpx
          simp at hpx
        · exact ⟨hx, hpx⟩

theorem deleteStudentPred_mem (stu : List (Int × Bag)) (schema : SchemaDef)
    (pred : Bag → SchemaDef → Except Err Bool) (x : Int × Bag) :
    x ∈ (SecScoreDB.deleteStudentPred stu schema pred).1 ↔
      x ∈ stu ∧ pred x.2 schema ≠ .ok true := by
  induction stu with
  | nil => simp [SecScoreDB.deleteStudentPred]
  | cons e rest ih =>
    obtain ⟨id, bag⟩ := e
    simp only [SecScoreDB.deleteStudentPred]
    cases hp : pred bag schema with
    | ok b =>
      cases b with
      | true =>
        dsimp only
        rw [ih]
        simp only [List.mem_cons]
        constructor
        · rintro ⟨hx, hpx⟩
          exact ⟨Or.inr hx, hpx⟩
        · rintro ⟨rfl | hx, hpx⟩
          · exact absurd hp hpx
          · exact ⟨hx, hpx⟩
      | false =>
        dsimp only
        simp only [List.mem_cons, ih]
        constructor
        · rintro (rfl | ⟨hx, hpx⟩)
          · exact ⟨Or.inl rfl, by rw [hp]; simp⟩
          · exact ⟨Or.inr hx, hpx⟩
        · rintro ⟨rfl | hx, hpx⟩
          · exact Or.inl rfl
          · exact Or.inr ⟨hx, hpx⟩
    | error err =>
      dsimp only
      simp only [List.mem_cons, ih]
      constructor
      · rintro (rfl | ⟨hx, hpx⟩)
        · exact ⟨Or.inl rfl, by rw [hp]; simp⟩
        · exact ⟨Or.inr hx, hpx⟩
      · rintro ⟨rfl | hx, hpx⟩
        · exact Or.inl rfl
        · exact Or.inr ⟨hx, hpx⟩

/-- C9: the predicate-based store queries never propagate a predicate
error: an entity on which the predicate fails is omitted from
getStudent(pred)'s results and left in the store by deleteStudent(pred),
while every other entity is still visited — the result sets are exactly
the entities on which the predicate returns true (respectively does not
return true). -/
theorem claim_C9_predicate_error_isolation (stu : List (Int × Bag))
    (schema : SchemaDef) (pred : Bag → SchemaDef → Except Err Bool)
    (x : Int × Bag) :
    (x ∈ SecScoreDB.getStudentPred stu schema pred ↔
      x ∈ stu ∧ pred x.2 schema = .ok true) ∧
    (x ∈ (SecScoreDB.deleteStudentPred stu schema pred).1 ↔
      x ∈ stu ∧ pred x.2 schema ≠ .ok true) :=
  ⟨getStudentPred_mem stu schema pred x, deleteStudentPred_mem stu schema pred x⟩

theorem claim_C9_witness :
    ((7, [("a", "boom")]) ∈
      SecScoreDB.getStudentPred [(7, [("a", "boom")])] []
        (fun _ _ => .error .InvalidFormat) → False) ∧
    (7, [("a", "boom")]) ∈
      (SecScoreDB.deleteStudentPred [(7, [("a", "boom")])] []
        (fun _ _ => .error .InvalidFormat)).1 :=
  ⟨fun hmem =>
    by simpa using ((claim_C9_predicate_error_isolation [(7, [("a", "boom")])] []
      (fun _ _ => .error .InvalidFormat) (7, [("a", "boom")])).1.mp hmem).2,
   (claim_C9_predicate_error_isolation [(7, [("a", "boom")])] []
      (fun _ _ => .error .InvalidFormat) (7, [("a", "boom")])).2.mpr
      ⟨by simp, by simp⟩⟩

theorem claim_C7_witness :
    DynamicWrapper.get [("name", FieldType.String)] [] "name" .RString
      = .ok (.vstr "") ∧
    DynamicWrapper.get [("age", FieldType.Int)] [] "age" .RInt
      = .error .EmptyValue ∧
    DynamicWrapper.get [("score", FieldType.Double)] [] "score" .RDouble
      = .error .EmptyValue :=
  ⟨(claim_C7_absent_field_reads _ _ _ _ (by decide) (by decide)).1 rfl,
   (claim_C7_absent_field_reads _ _ _ _ (by decide) (by decide)).2.1 rfl,
   (claim_C7_absent_field_reads _ _ _ _ (by decide) (by decide)).2.2 rfl⟩
